import Mathlib

/-!
Verification of the MET predictor pipeline (met-predictor-app).

We give a shallow embedding of the core pipeline:
* the activity → MET label mapper (`src/src/data_processing/wisdm_processor.py`),
* the sliding-window segmenter (`src/scripts/train_model.py`),
* the 16-dimensional feature extractor (`src/src/feature_extraction/feature_extractor.py`),
* the classifier wrapper `METPredictor` (`src/src/models/met_predictor.py`),
* the stability/voting layer (mobile side; modelled from the spec).

Machine floats are modelled as rationals where no irrational operation occurs;
where the code takes square roots (std, RMS, magnitudes) we use real numbers.
A possibly-NaN float (the result of a failed pandas `.map` lookup) is modelled
as `Option ℚ` with `none` playing the role of NaN: every ordered comparison
against NaN is false, exactly as in IEEE-754 and hence in Python/numpy.
-/

/-- Comparison `v < c` on a possibly-NaN float value: NaN compares false
against everything (IEEE-754 semantics, used by Python's `<` on `float('nan')`). -/
def fLt (v : Option ℚ) (c : ℚ) : Bool :=
  match v with
  | none => false
  | some q => decide (q < c)

/-- Translation of `WISDMDataProcessor.get_met_class` for ordinary (non-NaN)
float inputs: `if met_value < 1.5: 0 elif met_value < 3.0: 1 elif
met_value < 6.0: 2 else: 3`. -/
def get_met_class (met_value : ℚ) : ℕ :=
  if met_value < 1.5 then 0
  else if met_value < 3.0 then 1
  else if met_value < 6.0 then 2
  else 3

/-- Translation of `WISDMDataProcessor.get_met_class` on possibly-NaN inputs,
with the comparisons evaluated by float semantics (`fLt`). -/
def get_met_class_f (met_value : Option ℚ) : ℕ :=
  if fLt met_value 1.5 then 0
  else if fLt met_value 3.0 then 1
  else if fLt met_value 6.0 then 2
  else 3

/-- Translation of `WISDMDataProcessor.activity_met_mapping`: the fixed
activity → MET-value dictionary. Lookup of a missing key by pandas
`Series.map` yields NaN, i.e. `none` here. -/
def activity_met_mapping (activity : String) : Option ℚ :=
  if activity = "Walking" then some 3.0
  else if activity = "Jogging" then some 7.0
  else if activity = "Running" then some 8.0
  else if activity = "Upstairs" then some 4.0
  else if activity = "Downstairs" then some 3.5
  else if activity = "Sitting" then some 1.0
  else if activity = "Standing" then some 1.2
  else if activity = "SlowWalk" then some 2.5
  else none

/-- Translation of the labeling step of
`WISDMDataProcessor.load_and_process_data` (lines 97-99) for one row:
`met_value = activity.map(activity_met_mapping)` followed by
`met_class = met_value.apply(get_met_class)`. Returns the pair
(met_value, met_class) that enters the processed dataframe. -/
def label_row (activity : String) : Option ℚ × ℕ :=
  let mv := activity_met_mapping activity
  (mv, get_met_class_f mv)

/-- Modelled from the spec: the Stability/Voting Layer lives in the mobile
application shell, which is not part of this repository's sources; per spec
§4.5 it keeps "the last N predictions (default N=3)". The rolling history is
kept most-recent-first. -/
def smooth_step (history : List ℕ) (p : ℕ) : List ℕ :=
  (p :: history).take 3

/-- Modelled from the spec: emit "the majority class among them; ties break
toward the most recent prediction". The history is most-recent-first, so
scanning left keeps the most recent element on a tie of counts. -/
def majority_vote (history : List ℕ) : ℕ :=
  history.foldl
    (fun best c => if history.count c > history.count best then c else best)
    (history.headD 0)

/-- Modelled from the spec: feed a sequence of window-level class predictions
through the filter, emitting one smoothed decision per incoming prediction. -/
def smooth (ps : List ℕ) : List ℕ :=
  (ps.foldl
    (fun (acc : List ℕ × List ℕ) p =>
      let h := smooth_step acc.1 p
      (h, acc.2 ++ [majority_vote h]))
    ([], [])).2

/-- Sample: one row of the processed dataframe as consumed by
`create_features_from_dataframe` in `src/scripts/train_model.py`. -/
structure Sample where
  user : String
  activity : String
  x : ℚ
  y : ℚ
  z : ℚ
  met_class : ℕ
deriving Inhabited

/-- Translation of Python `range(0, stop, step)` with an integer `stop` and a
natural `step`: the ascending multiples of `step` strictly below `stop`.
Python raises on `step = 0`; we return `[]` there and the windowing theorems
assume `2 ≤ window_size` so that the stride `window_size // 2` is positive. -/
def pyRange (stop : ℤ) (step : ℕ) : List ℕ :=
  if stop ≤ 0 ∨ step = 0 then []
  else (List.range ((stop - 1).toNat / step + 1)).map (· * step)

/-- Translation of the loop header of `create_features_from_dataframe`:
`for i in range(0, len(activity_data) - window_size + 1, window_size//2)`. -/
def window_starts (L W : ℕ) : List ℕ :=
  pyRange ((L : ℤ) - W + 1) (W / 2)

/-- Translation of the per-start window construction
`window = activity_data.iloc[i:i+window_size]` followed by the guard
`if len(window) == window_size`. -/
def sliding_windows (g : List Sample) (W : ℕ) : List (List Sample) :=
  ((window_starts g.length W).map fun i => (g.drop i).take W).filter
    fun w => w.length == W

/-- Translation of `labels.append(window['met_class'].iloc[0])`: a window is
labeled by the MET class of its first sample. -/
def window_label (w : List Sample) : ℕ :=
  (w.headD default).met_class

/-- Translation of the grouping `user_data = df[df['user'] == user]` and
`activity_data = user_data[user_data['activity'] == activity]`. -/
def group_rows (df : List Sample) (u a : String) : List Sample :=
  df.filter fun s => s.user == u && s.activity == a

/-- Concrete sample used by closed witnesses. -/
def sample0 : Sample :=
  ⟨"u1", "Walking", 0, 0, (98 : ℚ) / 10, 2⟩

/-- Translation of `np.mean`: the arithmetic mean of a list of reals (the
source never applies it to an empty array; real division by zero gives 0). -/
noncomputable def npMean (l : List ℝ) : ℝ :=
  l.sum / l.length

/-- Translation of `np.std`: the population standard deviation, the square
root of the mean squared deviation from the mean. -/
noncomputable def npStd (l : List ℝ) : ℝ :=
  Real.sqrt (npMean (l.map fun v => (v - npMean l) ^ 2))

/-- Translation of `np.sqrt(np.mean(v**2))`: the root mean square. -/
noncomputable def npRms (l : List ℝ) : ℝ :=
  Real.sqrt (npMean (l.map fun v => v ^ 2))

/-- Translation of `np.min` on a nonempty array. -/
noncomputable def npMin (l : List ℝ) : ℝ :=
  match l with
  | [] => 0
  | h :: t => t.foldl min h

/-- Translation of `np.max` on a nonempty array. -/
noncomputable def npMax (l : List ℝ) : ℝ :=
  match l with
  | [] => 0
  | h :: t => t.foldl max h

/-- Translation of `np.sign`: -1 on negatives, 0 at 0, 1 on positives. -/
noncomputable def npSign (r : ℝ) : ℝ :=
  if r < 0 then -1 else if r = 0 then 0 else 1

/-- Translation of `np.percentile(l, q)` with the default linear
interpolation: with the data sorted ascending and the fractional rank
`h = q/100 * (n-1)`, interpolate between the entries at `⌊h⌋` and `⌈h⌉`. -/
noncomputable def npPercentile (l : List ℝ) (q : ℝ) : ℝ :=
  let s := l.insertionSort (· ≤ ·)
  let h : ℝ := q / 100 * ((l.length : ℝ) - 1)
  s.getD ⌊h⌋.toNat 0 + (h - ⌊h⌋) * (s.getD ⌈h⌉.toNat 0 - s.getD ⌊h⌋.toNat 0)

/-- Translation of `magnitude = np.sqrt(x**2 + y**2 + z**2)` elementwise on
the three axis arrays. -/
noncomputable def magnitudeList (x y z : List ℝ) : List ℝ :=
  List.zipWith3 (fun a b c => Real.sqrt (a ^ 2 + b ^ 2 + c ^ 2)) x y z

/-- Translation of the zero-crossing feature:
`np.sum(np.diff(np.sign(x - mean_x)) != 0)`; `np.diff` forms the consecutive
differences, so this counts adjacent pairs whose sign values differ. -/
noncomputable def zero_crossings (x : List ℝ) : ℕ :=
  let s := x.map fun v => npSign (v - npMean x)
  ((s.zip s.tail).filter fun p => decide (p.2 - p.1 ≠ 0)).length

/-- Translation of `METFeatureExtractor.extract_features`: the 16 features in
source order (means, stds, min/max magnitude, RMS, zero crossings,
percentiles). -/
noncomputable def extract_features (x y z : List ℝ) : List ℝ :=
  let magnitude := magnitudeList x y z
  [npMean x, npMean y, npMean z, npMean magnitude]
    ++ [npStd x, npStd y, npStd z, npStd magnitude]
    ++ [npMin magnitude, npMax magnitude]
    ++ [npRms x, npRms y, npRms z]
    ++ [(zero_crossings x : ℝ)]
    ++ [npPercentile magnitude 25, npPercentile magnitude 75]

/-- Translation of `METFeatureExtractor.get_feature_names`. -/
def get_feature_names : List String :=
  ["mean_x", "mean_y", "mean_z", "mean_magnitude",
   "std_x", "std_y", "std_z", "std_magnitude",
   "min_magnitude", "max_magnitude",
   "rms_x", "rms_y", "rms_z",
   "zero_crossings_x",
   "magnitude_p25", "magnitude_p75"]

/-- Decision tree of the fitted random forest, abstracted by its prediction
function: for a scaled feature vector it returns the class-probability vector
of the leaf the vector falls into. The internal structure of sklearn's fitted
trees is external library code; sklearn guarantees each tree's vector is a
probability distribution over the four classes. -/
abbrev DecisionTree : Type := List ℝ → Fin 4 → ℝ

/-- Fitted `RandomForestClassifier`, abstracted as its list of trees. -/
abbrev Forest : Type := List DecisionTree

/-- Model of sklearn's `RandomForestClassifier.predict_proba` on one row:
the average of the per-tree class-probability vectors. -/
noncomputable def forest_proba (f : Forest) (v : List ℝ) (c : Fin 4) : ℝ :=
  (f.map fun t => t v c).sum / f.length

/-- Model of `np.argmax` over the four class probabilities (used by sklearn's
`predict`, whose `classes_` here is `[0,1,2,3]`): the first index attaining
the maximum; a later index replaces the running best only when strictly
greater. -/
noncomputable def argmax4 (p : Fin 4 → ℝ) : Fin 4 :=
  let a := if p 1 > p 0 then (1 : Fin 4) else 0
  let b := if p 2 > p a then (2 : Fin 4) else a
  if p 3 > p b then (3 : Fin 4) else b

/-- Fitted `StandardScaler`, as persisted: per-feature mean and scale. -/
structure Scaler where
  mean : List ℝ
  scale : List ℝ

/-- Translation of `StandardScaler.transform` on one row: the affine map
`(value - mean) / scale` featurewise. -/
noncomputable def Scaler.transform (sc : Scaler) (v : List ℝ) : List ℝ :=
  List.zipWith3 (fun vi mi si => (vi - mi) / si) v sc.mean sc.scale

/-- State of a `METPredictor` instance: the four fields of `__init__`, with
`model` and `scaler` starting as `None`. -/
structure METPredictorState where
  model : Option Forest
  scaler : Option Scaler
  feature_names : Option (List String)
  met_classes : List (ℕ × String)

/-- The fixed `met_classes` dictionary set in `METPredictor.__init__`. -/
def init_met_classes : List (ℕ × String) :=
  [(0, "Sedentary"), (1, "Light"), (2, "Moderate"), (3, "Vigorous")]

/-- A freshly constructed `METPredictor()`. -/
def METPredictor_init : METPredictorState :=
  ⟨none, none, none, init_met_classes⟩

/-- Result dictionary of `METPredictor.predict`. -/
structure PredictResult where
  predicted_class : ℕ
  class_name : String
  probabilities : List ℝ
  confidence : ℝ

/-- Dictionary lookup `self.met_classes[prediction]` (a missing key would
raise `KeyError`; modelled by the empty string, unreachable for keys 0-3). -/
def lookup_class (mc : List (ℕ × String)) (k : ℕ) : String :=
  ((mc.find? fun p => p.1 == k).map Prod.snd).getD ""

/-- Translation of `METPredictor.predict`: raise "Model not trained or
loaded" when `model` or `scaler` is `None`; otherwise scale the single
feature vector with the stored scaler, and return the arg-max class, its
name, the four class probabilities, and `np.max(probabilities)` as the
confidence. -/
noncomputable def METPredictor_predict (st : METPredictorState)
    (features : List ℝ) : Except String PredictResult :=
  match st.model, st.scaler with
  | some f, some sc =>
      let scaled := sc.transform features
      let probs := forest_proba f scaled
      let pred := argmax4 probs
      .ok ⟨pred.val, lookup_class st.met_classes pred.val,
           [probs 0, probs 1, probs 2, probs 3],
           npMax [probs 0, probs 1, probs 2, probs 3]⟩
  | _, _ => .error "Model not trained or loaded"

/-- Columns of a row-major feature matrix (used to fit the scaler
featurewise). -/
def columns (X : List (List ℝ)) (n : ℕ) : List (List ℝ) :=
  (List.range n).map fun j => X.map fun row => row.getD j 0

/-- Model of `StandardScaler.fit` on the training rows: per-feature mean and
population standard deviation, with zero scales clamped to 1 (sklearn's
`_handle_zeros_in_scale`; spec §4.4 numeric semantics). -/
noncomputable def fit_scaler (X : List (List ℝ)) : Scaler :=
  let cols := columns X (X.headD []).length
  ⟨cols.map npMean, cols.map fun c => if npStd c = 0 then 1 else npStd c⟩

/-- Model of `train_test_split(X, y, test_size=0.2, random_state=42,
stratify=y)` at the interface level: a split into a training part and a
held-out part with `n_test = ceil(0.2 * n)`. The seeded stratified shuffling
is internal to the external library and no claim below depends on it; the
permutation is modelled as the identity. -/
def train_test_split (X : List (List ℝ)) (y : List ℕ) :
    List (List ℝ) × List (List ℝ) × List ℕ × List ℕ :=
  let nTest := (X.length + 4) / 5
  let nTrain := X.length - nTest
  (X.take nTrain, X.drop nTrain, y.take nTrain, y.drop nTrain)

/-- Model of `RandomForestClassifier(...).fit` at the interface level:
fitting yields some forest. The bootstrap/tree-growing internals are external
library code no claim below depends on; modelled as the one-tree forest
returning the empirical class distribution of the training labels. -/
noncomputable def fit_forest (_X : List (List ℝ)) (y : List ℕ) : Forest :=
  [fun _ c => (y.count c.val : ℝ) / y.length]

/-- Translation of `METPredictor.train`: split the data, fit the scaler on
the training split only, fit the forest on the scaled training features, and
store model, scaler and feature names. The returned held-out accuracy is
evaluation output not modelled here. -/
noncomputable def METPredictor_train (st : METPredictorState)
    (X : List (List ℝ)) (y : List ℕ) (feature_names : List String) :
    METPredictorState :=
  let split := train_test_split X y
  let sc := fit_scaler split.1
  let f := fit_forest (split.1.map sc.transform) split.2.2.1
  { st with model := some f, scaler := some sc,
            feature_names := some feature_names }

/-- Metadata record written by `save_model` to `model_metadata.json`. -/
structure ModelMetadata where
  feature_names : Option (List String)
  met_classes : List (ℕ × String)
  model_type : String
  n_features : ℕ

/-- Model artifact directory produced by `save_model`: the pickled model and
scaler plus the JSON metadata. The joblib/json byte encodings are external
I/O modelled as the values themselves; JSON stringifies the integer keys of
`met_classes` and `load_model` maps them back with `int(k)`, two mutually
inverse encodings elided here. -/
structure ModelArtifact where
  met_model : Option Forest
  scaler : Option Scaler
  metadata : ModelMetadata

/-- Translation of `METPredictor.save_model`. -/
def METPredictor_save (st : METPredictorState) : ModelArtifact :=
  ⟨st.model, st.scaler,
   ⟨st.feature_names, st.met_classes, "RandomForestClassifier",
    (st.feature_names.getD []).length⟩⟩

/-- Translation of `METPredictor.load_model`: overwrite the instance's
model, scaler, feature names and class mapping with the artifact's. -/
def METPredictor_load (_st : METPredictorState) (a : ModelArtifact) :
    METPredictorState :=
  ⟨a.met_model, a.scaler, a.metadata.feature_names, a.metadata.met_classes⟩

/-- Concrete one-tree forest used by closed witnesses: all mass on class 0. -/
noncomputable def example_forest : Forest :=
  [fun _ c => if c.val = 0 then (1 : ℝ) else 0]

/-- Concrete fitted scaler used by closed witnesses. -/
noncomputable def example_scaler : Scaler :=
  ⟨List.replicate 16 0, List.replicate 16 1⟩

/-- Concrete saved artifact of a trained model, used by closed witnesses. -/
noncomputable def example_artifact : ModelArtifact :=
  ⟨some example_forest, some example_scaler,
   ⟨some get_feature_names, init_met_classes, "RandomForestClassifier", 16⟩⟩

/-- Concrete trained-state instance used by closed witnesses. -/
noncomputable def example_state : METPredictorState :=
  ⟨some example_forest, some example_scaler, some get_feature_names,
   init_met_classes⟩

/-- On a real (non-NaN) input, the float version of `get_met_class` agrees
with the rational version. -/
theorem get_met_class_f_some (q : ℚ) : get_met_class_f (some q) = get_met_class q := by
  simp [get_met_class_f, get_met_class, fLt]

/-- C2: `get_met_class` returns 0 on v < 1.5, 1 on 1.5 ≤ v < 3, 2 on
3 ≤ v < 6 and 3 on 6 ≤ v; it is non-decreasing, and the breakpoints map
inclusive-low: 1.5 ↦ 1, 3 ↦ 2, 6 ↦ 3. -/
theorem C2_get_met_class_piecewise :
    (∀ v : ℚ, (v < 1.5 → get_met_class v = 0)
      ∧ (1.5 ≤ v → v < 3 → get_met_class v = 1)
      ∧ (3 ≤ v → v < 6 → get_met_class v = 2)
      ∧ (6 ≤ v → get_met_class v = 3))
    ∧ (∀ v w : ℚ, v ≤ w → get_met_class v ≤ get_met_class w)
    ∧ get_met_class 1.5 = 1 ∧ get_met_class 3 = 2 ∧ get_met_class 6 = 3 := by
  refine ⟨fun v => ⟨?_, ?_, ?_, ?_⟩, ?_, by norm_num [get_met_class],
    by norm_num [get_met_class], by norm_num [get_met_class]⟩
  · intro h; simp [get_met_class, h]
  · intro h1 h2
    simp only [get_met_class]
    rw [if_neg (by linarith), if_pos (by linarith)]
  · intro h1 h2
    simp only [get_met_class]
    rw [if_neg (by linarith), if_neg (by linarith), if_pos (by linarith)]
  · intro h
    simp only [get_met_class]
    rw [if_neg (by linarith), if_neg (by linarith), if_neg (by linarith)]
  · intro v w hvw
    simp only [get_met_class]
    split_ifs <;> first | omega | linarith

/-- C2 witness: concrete evaluations through the theorem. -/
theorem C2_get_met_class_piecewise_witness :
    get_met_class 2 = 1 ∧ get_met_class 1 ≤ get_met_class 7 :=
  ⟨(C2_get_met_class_piecewise.1 2).2.1 (by norm_num) (by norm_num),
   C2_get_met_class_piecewise.2.1 1 7 (by norm_num)⟩

/-- C9: `get_met_class` is total and always lands in {0,1,2,3}; on NaN input
(the unmapped-activity case) every breakpoint comparison is false and the
function returns 3 (Vigorous). -/
theorem C9_get_met_class_total_nan :
    (∀ v : Option ℚ, get_met_class_f v = 0 ∨ get_met_class_f v = 1
      ∨ get_met_class_f v = 2 ∨ get_met_class_f v = 3)
    ∧ get_met_class_f none = 3 := by
  constructor
  · intro v
    simp only [get_met_class_f]
    split_ifs <;> simp
  · rfl

/-- C7: the stability layer keeps at most the last 3 predictions, and feeding
the prediction sequence [0,0,3,0,0] through it yields [0,0,0,0,0]: the lone
spike at index 2 is suppressed. -/
theorem C7_stability_majority :
    (∀ (h : List ℕ) (p : ℕ), (smooth_step h p).length ≤ 3)
    ∧ smooth [0, 0, 3, 0, 0] = [0, 0, 0, 0, 0] := by
  constructor
  · intro h p
    simp [smooth_step]
  · rfl

/-- Every emitted window start leaves room for a full window. -/
lemma mem_window_starts {L W i : ℕ} (hi : i ∈ window_starts L W) :
    i + W ≤ L := by
  unfold window_starts pyRange at hi
  by_cases h : (L : ℤ) - W + 1 ≤ 0 ∨ W / 2 = 0
  · simp [h] at hi
  · rw [if_neg h] at hi
    push_neg at h
    obtain ⟨hpos, hs⟩ := h
    obtain ⟨j, hj, rfl⟩ := List.mem_map.1 hi
    rw [List.mem_range] at hj
    have htn : ((L : ℤ) - W + 1 - 1).toNat = L - W := by omega
    rw [htn] at hj
    have hj' : j ≤ (L - W) / (W / 2) := by omega
    have h1 : j * (W / 2) ≤ ((L - W) / (W / 2)) * (W / 2) :=
      Nat.mul_le_mul_right _ hj'
    have h2 : ((L - W) / (W / 2)) * (W / 2) ≤ L - W := Nat.div_mul_le_self _ _
    omega

/-- The length guard of the inner `if` is a no-op: every window cut at an
emitted start already has full length, so `filter` keeps everything. -/
lemma sliding_windows_eq (g : List Sample) (W : ℕ) :
    sliding_windows g W =
      (window_starts g.length W).map fun i => (g.drop i).take W := by
  apply List.filter_eq_self.2
  intro w hw
  obtain ⟨i, hi, rfl⟩ := List.mem_map.1 hw
  have hiW := mem_window_starts hi
  simp only [List.length_take, List.length_drop, beq_iff_eq]
  omega

/-- Window count in the non-degenerate case, as a closed formula. -/
lemma sliding_windows_length (g : List Sample) (W : ℕ) (hW : 2 ≤ W) :
    (sliding_windows g W).length =
      (((g.length : ℤ) - W) / ((W / 2 : ℕ) : ℤ) + 1).toNat := by
  rw [sliding_windows_eq g W, List.length_map]
  unfold window_starts pyRange
  by_cases h : (g.length : ℤ) - W + 1 ≤ 0
  · rw [if_pos (Or.inl h)]
    have hS : (0 : ℤ) < ((W / 2 : ℕ) : ℤ) := by
      have : 1 ≤ W / 2 := by omega
      omega
    have hneg : ((g.length : ℤ) - W) / ((W / 2 : ℕ) : ℤ) < 0 :=
      Int.ediv_neg' (by omega) hS
    simp only [List.length_nil]
    omega
  · rw [if_neg (not_or.2 ⟨h, by omega⟩)]
    rw [List.length_map, List.length_range]
    have htn : ((g.length : ℤ) - W + 1 - 1).toNat = g.length - W := by omega
    rw [htn]
    have hWL : W ≤ g.length := by omega
    have hcast : ((g.length - W : ℕ) : ℤ) = (g.length : ℤ) - W := by omega
    have h3 : ((g.length : ℤ) - W) / ((W / 2 : ℕ) : ℤ) =
        (((g.length - W) / (W / 2) : ℕ) : ℤ) := by
      rw [← hcast]
      exact_mod_cast (Int.ofNat_ediv (g.length - W) (W / 2)).symm
    rw [h3]
    have h4 : ((((g.length - W) / (W / 2) : ℕ) : ℤ) + 1) =
        (((g.length - W) / (W / 2) + 1 : ℕ) : ℤ) := by
      push_cast
      ring
    rw [h4, Int.toNat_natCast]

/-- C4: windows are emitted from index 0 with stride W//2 while a full window
fits; each has length W exactly; the count matches max(0, (L-W)//(W//2)+1)
(with // the floor division, written here via `Int.toNat`); a group shorter
than W yields no windows; each window is labeled by its first sample's MET
class; and windows over a (user, activity) group never mix users or
activities. -/
theorem C4_window_segmentation (g df : List Sample) (W : ℕ) (hW : 2 ≤ W) :
    (sliding_windows g W).length =
        (((g.length : ℤ) - W) / ((W / 2 : ℕ) : ℤ) + 1).toNat
    ∧ (g.length < W → sliding_windows g W = [])
    ∧ (sliding_windows g W =
        (window_starts g.length W).map fun i => (g.drop i).take W)
    ∧ (window_starts g.length W =
        (List.range (sliding_windows g W).length).map (· * (W / 2)))
    ∧ (∀ w ∈ sliding_windows g W, w.length = W)
    ∧ (∀ w ∈ sliding_windows g W, ∃ s t, w = s :: t ∧ window_label w = s.met_class)
    ∧ (∀ u a, ∀ w ∈ sliding_windows (group_rows df u a) W, ∀ s ∈ w,
        s.user = u ∧ s.activity = a) := by
  have hlen : ∀ w ∈ sliding_windows g W, w.length = W := by
    intro w hw
    rw [sliding_windows_eq g W] at hw
    obtain ⟨i, hi, rfl⟩ := List.mem_map.1 hw
    have hiW := mem_window_starts hi
    simp only [List.length_take, List.length_drop]
    omega
  refine ⟨sliding_windows_length g W hW, ?_, sliding_windows_eq g W, ?_, hlen, ?_, ?_⟩
  · intro hLW
    have h0 : (sliding_windows g W).length = 0 := by
      rw [sliding_windows_length g W hW]
      have hS : (0 : ℤ) < ((W / 2 : ℕ) : ℤ) := by
        have : 1 ≤ W / 2 := by omega
        omega
      have hneg : ((g.length : ℤ) - W) / ((W / 2 : ℕ) : ℤ) < 0 :=
        Int.ediv_neg' (by omega) hS
      omega
    exact List.length_eq_zero.1 h0
  · rw [sliding_windows_eq g W, List.length_map]
    unfold window_starts pyRange
    by_cases h : (g.length : ℤ) - W + 1 ≤ 0 ∨ W / 2 = 0
    · rw [if_pos h]
      simp
    · rw [if_neg h]
      rw [List.length_map, List.length_range]
  · intro w hw
    have hw' := hlen w hw
    have hne : w ≠ [] := by
      intro hnil
      rw [hnil] at hw'
      simp at hw'
      omega
    obtain ⟨s, t, hst⟩ := List.exists_cons_of_ne_nil hne
    exact ⟨s, t, hst, by rw [hst]; rfl⟩
  · intro u a w hw s hs
    have hsg : s ∈ group_rows df u a := by
      rw [sliding_windows_eq _ W] at hw
      obtain ⟨i, hi, rfl⟩ := List.mem_map.1 hw
      exact List.mem_of_mem_drop (List.mem_of_mem_take hs)
    have := List.of_mem_filter hsg
    simp only [Bool.and_eq_true, beq_iff_eq] at this
    exact this

/-- C4 witness: a group of 5 identical samples with window size 4 yields
exactly one full window. -/
theorem C4_window_segmentation_witness :
    (sliding_windows (List.replicate 5 sample0) 4).length =
      ((((List.replicate 5 sample0).length : ℤ) - 4) / ((4 / 2 : ℕ) : ℤ) + 1).toNat :=
  (C4_window_segmentation (List.replicate 5 sample0) [] 4 (by norm_num)).1

/-- The standard deviation of a one-element window is 0. -/
lemma npStd_singleton (a : ℝ) : npStd [a] = 0 := by
  have hm : npMean [a] = a := by
    simp [npMean]
  simp [npStd, hm, npMean]

/-- C5: the extractor returns exactly 16 numbers, in the exact order of the
fixed feature-name list, and on a window of length 1 the four standard
deviations and the zero-crossing count are 0. -/
theorem C5_extract_features_contract (x y z : List ℝ)
    (hxy : x.length = y.length) (hyz : y.length = z.length) (hx : 1 ≤ x.length) :
    (extract_features x y z).length = 16
    ∧ get_feature_names =
        ["mean_x", "mean_y", "mean_z", "mean_magnitude",
         "std_x", "std_y", "std_z", "std_magnitude",
         "min_magnitude", "max_magnitude",
         "rms_x", "rms_y", "rms_z",
         "zero_crossings_x",
         "magnitude_p25", "magnitude_p75"]
    ∧ extract_features x y z =
        [npMean x, npMean y, npMean z, npMean (magnitudeList x y z),
         npStd x, npStd y, npStd z, npStd (magnitudeList x y z),
         npMin (magnitudeList x y z), npMax (magnitudeList x y z),
         npRms x, npRms y, npRms z,
         (zero_crossings x : ℝ),
         npPercentile (magnitudeList x y z) 25, npPercentile (magnitudeList x y z) 75]
    ∧ (x.length = 1 →
        npStd x = 0 ∧ npStd y = 0 ∧ npStd z = 0 ∧ npStd (magnitudeList x y z) = 0
        ∧ zero_crossings x = 0) := by
  refine ⟨rfl, rfl, rfl, ?_⟩
  intro h1
  obtain ⟨a, ha⟩ := List.length_eq_one.1 h1
  obtain ⟨b, hb⟩ := List.length_eq_one.1 (show y.length = 1 by omega)
  obtain ⟨c, hc⟩ := List.length_eq_one.1 (show z.length = 1 by omega)
  subst ha hb hc
  refine ⟨npStd_singleton a, npStd_singleton b, npStd_singleton c, ?_, ?_⟩
  · show npStd [Real.sqrt (a ^ 2 + b ^ 2 + c ^ 2)] = 0
    exact npStd_singleton _
  · simp [zero_crossings]

/-- C5 witness: the contract applied to the one-sample window x=y=[1], z=[2]. -/
theorem C5_extract_features_contract_witness :
    (extract_features [1] [1] [2]).length = 16 ∧ npStd ([1] : List ℝ) = 0 :=
  ⟨(C5_extract_features_contract [1] [1] [2] rfl rfl (by norm_num)).1,
   ((C5_extract_features_contract [1] [1] [2] rfl rfl (by norm_num)).2.2.2 rfl).1⟩

/-- C10: the zero-crossing feature counts adjacent pairs whose np.sign values
(taken in {-1,0,1}) differ; a constant window yields 0; and a sample landing
exactly on the window mean is counted both entering and leaving the zero
sign, as on the window [-1, 0, 1] whose count is 2. -/
theorem C10_zero_crossing_semantics :
    (∀ x : List ℝ, zero_crossings x =
      (((x.map fun v => npSign (v - npMean x)).zip
          (x.map fun v => npSign (v - npMean x)).tail).filter
        fun p => decide (p.1 ≠ p.2)).length)
    ∧ (∀ r : ℝ, npSign r = -1 ∨ npSign r = 0 ∨ npSign r = 1)
    ∧ (∀ (n : ℕ) (c : ℝ), zero_crossings (List.replicate n c) = 0)
    ∧ zero_crossings [(-1 : ℝ), 0, 1] = 2 := by
  have hfilter : ∀ l : List (ℝ × ℝ),
      (l.filter fun p => decide (p.2 - p.1 ≠ 0)) =
        (l.filter fun p => decide (p.1 ≠ p.2)) := by
    intro l
    apply List.filter_congr
    intro p _
    apply decide_eq_decide.2
    rw [sub_ne_zero]
    exact ne_comm
  refine ⟨?_, ?_, ?_, ?_⟩
  · intro x
    simp only [zero_crossings]
    rw [hfilter]
  · intro r
    unfold npSign
    split_ifs <;> simp
  · intro n c
    cases n with
    | zero => rfl
    | succ m =>
      have hmean : npMean (List.replicate (m + 1) c) = c := by
        have hne : ((m + 1 : ℕ) : ℝ) ≠ 0 := Nat.cast_ne_zero.2 (Nat.succ_ne_zero m)
        simp only [npMean, List.sum_replicate, List.length_replicate, nsmul_eq_mul]
        rw [mul_comm, mul_div_assoc, div_self hne, mul_one]
      have hs : (List.replicate (m + 1) c).map
          (fun v => npSign (v - npMean (List.replicate (m + 1) c))) =
            List.replicate (m + 1) (0 : ℝ) := by
        rw [hmean, List.map_replicate]
        congr 1
        simp [npSign]
      simp only [zero_crossings, hs, List.tail_replicate]
      rw [List.length_eq_zero, List.filter_eq_nil_iff]
      rintro ⟨p1, p2⟩ hp
      obtain ⟨h1, h2⟩ := List.of_mem_zip hp
      rw [List.eq_of_mem_replicate h1, List.eq_of_mem_replicate h2]
      simp
  · have hm : npMean [(-1 : ℝ), 0, 1] = 0 := by
      simp [npMean]
    simp only [zero_crossings, hm, List.map]
    norm_num [npSign]

/-- C1 evidence: on an activity absent from `activity_met_mapping` the
labeling pipeline silently produces a NaN MET value together with MET class 3
(Vigorous); no error is raised and the row enters training. -/
theorem C1_unmapped_silent_class3 :
    label_row "Biking" = (none, 3) ∧ activity_met_mapping "Biking" = none := by
  constructor <;> rfl

/-- C8: `predict` raises the distinct "Model not trained or loaded" error
exactly when the stored classifier or normalizer is absent; a fresh instance
raises it, and after a `train` or a `load` of a complete artifact it is never
raised. -/
theorem C8_not_ready_error (st : METPredictorState) (v : List ℝ)
    (X : List (List ℝ)) (y : List ℕ) (names : List String) (a : ModelArtifact) :
    (METPredictor_predict st v = .error "Model not trained or loaded"
      ↔ st.model = none ∨ st.scaler = none)
    ∧ METPredictor_predict METPredictor_init v
        = .error "Model not trained or loaded"
    ∧ (∀ w, METPredictor_predict (METPredictor_train st X y names) w
        ≠ .error "Model not trained or loaded")
    ∧ (a.met_model ≠ none → a.scaler ≠ none →
        ∀ w, METPredictor_predict (METPredictor_load st a) w
          ≠ .error "Model not trained or loaded") := by
  refine ⟨?_, rfl, ?_, ?_⟩
  · rcases st with ⟨om, os, fn, mc⟩
    rcases om with _ | f <;> rcases os with _ | sc <;>
      simp [METPredictor_predict]
  · intro w
    simp [METPredictor_predict, METPredictor_train]
  · intro hm hs w
    rcases a with ⟨am, asc, md⟩
    rcases am with _ | f
    · simp at hm
    rcases asc with _ | sc
    · simp at hs
    simp [METPredictor_predict, METPredictor_load]

/-- C8 witness: the fresh instance raises the not-ready error, and after
loading a complete artifact it never does. -/
theorem C8_not_ready_error_witness :
    METPredictor_predict METPredictor_init [] = .error "Model not trained or loaded"
    ∧ ∀ w, METPredictor_predict (METPredictor_load METPredictor_init example_artifact) w
        ≠ .error "Model not trained or loaded" :=
  ⟨(C8_not_ready_error METPredictor_init [] [] [] [] example_artifact).2.1,
   (C8_not_ready_error METPredictor_init [] [] [] [] example_artifact).2.2.2
     (by simp [example_artifact]) (by simp [example_artifact])⟩

/-- C6: loading the artifact produced by save restores classifier,
normalizer, feature-name list and class mapping exactly, so predict returns
identical results (class, class name, probabilities, confidence) on every
feature vector. -/
theorem C6_save_load_roundtrip (st st0 : METPredictorState) (v : List ℝ) :
    (METPredictor_load st0 (METPredictor_save st)).model = st.model
    ∧ (METPredictor_load st0 (METPredictor_save st)).scaler = st.scaler
    ∧ (METPredictor_load st0 (METPredictor_save st)).feature_names = st.feature_names
    ∧ (METPredictor_load st0 (METPredictor_save st)).met_classes = st.met_classes
    ∧ METPredictor_predict (METPredictor_load st0 (METPredictor_save st)) v
        = METPredictor_predict st v := by
  refine ⟨rfl, rfl, rfl, rfl, ?_⟩
  rcases st with ⟨om, os, fn, mc⟩
  rfl

/-- Every probability is dominated by the one at the arg-max index. -/
lemma argmax4_le (p : Fin 4 → ℝ) :
    p 0 ≤ p (argmax4 p) ∧ p 1 ≤ p (argmax4 p)
      ∧ p 2 ≤ p (argmax4 p) ∧ p 3 ≤ p (argmax4 p) := by
  simp only [argmax4]
  split_ifs <;> refine ⟨?_, ?_, ?_, ?_⟩ <;> linarith

/-- Any index of `Fin 4` is one of the four literals. -/
lemma fin4_cases (i : Fin 4) : i = 0 ∨ i = 1 ∨ i = 2 ∨ i = 3 := by
  revert i
  decide

/-- `np.max` over the four probabilities equals the value at the arg-max. -/
lemma npMax_eq_argmax4 (p : Fin 4 → ℝ) :
    npMax [p 0, p 1, p 2, p 3] = p (argmax4 p) := by
  have h := argmax4_le p
  have hfold : npMax [p 0, p 1, p 2, p 3] = max (max (max (p 0) (p 1)) (p 2)) (p 3) := rfl
  rw [hfold]
  apply le_antisymm
  · exact max_le (max_le (max_le h.1 h.2.1) h.2.2.1) h.2.2.2
  · rcases fin4_cases (argmax4 p) with h4 | h4 | h4 | h4 <;> rw [h4]
    · exact le_max_of_le_left (le_max_of_le_left (le_max_left _ _))
    · exact le_max_of_le_left (le_max_of_le_left (le_max_right _ _))
    · exact le_max_of_le_left (le_max_right _ _)
    · exact le_max_right _ _

/-- Summation over the four classes commutes with summation over the trees. -/
lemma sum_fin4_map_comm (f : List DecisionTree) (v : List ℝ) :
    ∑ c : Fin 4, (f.map fun t => t v c).sum
      = (f.map fun t => ∑ c : Fin 4, t v c).sum := by
  induction f with
  | nil => simp
  | cons t ts ih =>
      simp only [List.map_cons, List.sum_cons, Finset.sum_add_distrib, ih]

/-- Summing the constant 1 over the trees counts them. -/
lemma sum_map_one (f : List DecisionTree) :
    (f.map fun _ => (1 : ℝ)).sum = f.length := by
  induction f with
  | nil => simp
  | cons t ts ih =>
      simp only [List.map_cons, List.sum_cons, List.length_cons, ih]
      push_cast
      ring

/-- The averaged forest probabilities sum to 1 when every tree's do. -/
lemma forest_proba_sum (f : Forest) (v : List ℝ) (hf : f ≠ [])
    (h1 : ∀ t ∈ f, (∑ c : Fin 4, t v c) = 1) :
    ∑ c : Fin 4, forest_proba f v c = 1 := by
  unfold forest_proba
  rw [← Finset.sum_div, sum_fin4_map_comm]
  rw [List.map_congr_left h1, sum_map_one]
  have hne : (f.length : ℝ) ≠ 0 :=
    Nat.cast_ne_zero.2 fun h0 => hf (List.length_eq_zero.1 h0)
  exact div_self hne

/-- The averaged forest probabilities are nonnegative when every tree's are. -/
lemma forest_proba_nonneg (f : Forest) (v : List ℝ)
    (h : ∀ t ∈ f, ∀ c : Fin 4, 0 ≤ t v c) :
    ∀ c, 0 ≤ forest_proba f v c := by
  intro c
  unfold forest_proba
  apply div_nonneg
  · apply List.sum_nonneg
    intro a ha
    obtain ⟨t, ht, rfl⟩ := List.mem_map.1 ha
    exact h t ht c
  · positivity

/-- Each averaged probability is at most 1 under the tree hypotheses. -/
lemma forest_proba_le_one (f : Forest) (v : List ℝ) (hf : f ≠ [])
    (htrees : ∀ t ∈ f, (∀ c : Fin 4, 0 ≤ t v c) ∧ (∑ c : Fin 4, t v c) = 1) :
    ∀ c, forest_proba f v c ≤ 1 := by
  intro c
  have hsum := forest_proba_sum f v hf fun t ht => (htrees t ht).2
  have hnn := forest_proba_nonneg f v fun t ht => (htrees t ht).1
  have hle : forest_proba f v c ≤ ∑ i : Fin 4, forest_proba f v i :=
    Finset.single_le_sum (fun i _ => hnn i) (Finset.mem_univ c)
  rw [hsum] at hle
  exact hle

/-- C3: on a trained or loaded model (sklearn guarantees each fitted tree
emits a probability distribution over the four classes), `predict` on a
16-float vector returns the arg-max class (an int in 0-3), exactly four
probabilities summing to 1 with each in [0,1], and the maximum probability as
the confidence, a value in [0,1]. -/
theorem C3_predict_contract (st : METPredictorState) (v : List ℝ)
    (f : Forest) (sc : Scaler)
    (hm : st.model = some f) (hs : st.scaler = some sc)
    (_hv : v.length = 16) (hf : f ≠ [])
    (htrees : ∀ t ∈ f, (∀ c : Fin 4, 0 ≤ t (sc.transform v) c)
      ∧ (∑ c : Fin 4, t (sc.transform v) c) = 1) :
    ∃ r, METPredictor_predict st v = .ok r
      ∧ r.probabilities.length = 4
      ∧ r.probabilities.sum = 1
      ∧ (∀ p ∈ r.probabilities, 0 ≤ p ∧ p ≤ 1)
      ∧ r.predicted_class ≤ 3
      ∧ (∀ p ∈ r.probabilities, p ≤ r.probabilities.getD r.predicted_class 0)
      ∧ r.confidence = npMax r.probabilities
      ∧ r.confidence = r.probabilities.getD r.predicted_class 0
      ∧ 0 ≤ r.confidence ∧ r.confidence ≤ 1 := by
  rcases st with ⟨om, os, fn, mc⟩
  simp only at hm hs
  subst hm hs
  have hsum := forest_proba_sum f (sc.transform v) hf fun t ht => (htrees t ht).2
  have hnn := forest_proba_nonneg f (sc.transform v) fun t ht => (htrees t ht).1
  have hle1 := forest_proba_le_one f (sc.transform v) hf htrees
  set P := forest_proba f (sc.transform v) with hP
  have hgetD : ∀ i : Fin 4,
      ([P 0, P 1, P 2, P 3].getD i.val 0) = P i := by
    intro i
    rcases fin4_cases i with rfl | rfl | rfl | rfl <;> rfl
  have hargle := argmax4_le P
  refine ⟨_, rfl, rfl, ?_, ?_, ?_, ?_, rfl, ?_, ?_, ?_⟩
  · show [P 0, P 1, P 2, P 3].sum = 1
    rw [Fin.sum_univ_four] at hsum
    simp only [List.sum_cons, List.sum_nil, add_zero]
    linarith
  · intro p hp
    simp only [List.mem_cons, List.not_mem_nil, or_false] at hp
    rcases hp with rfl | rfl | rfl | rfl
    · exact ⟨hnn 0, hle1 0⟩
    · exact ⟨hnn 1, hle1 1⟩
    · exact ⟨hnn 2, hle1 2⟩
    · exact ⟨hnn 3, hle1 3⟩
  · show (argmax4 P).val ≤ 3
    have := (argmax4 P).isLt
    omega
  · intro p hp
    show p ≤ [P 0, P 1, P 2, P 3].getD (argmax4 P).val 0
    rw [hgetD (argmax4 P)]
    simp only [List.mem_cons, List.not_mem_nil, or_false] at hp
    rcases hp with rfl | rfl | rfl | rfl
    · exact hargle.1
    · exact hargle.2.1
    · exact hargle.2.2.1
    · exact hargle.2.2.2
  · show npMax [P 0, P 1, P 2, P 3] = [P 0, P 1, P 2, P 3].getD (argmax4 P).val 0
    rw [hgetD (argmax4 P), npMax_eq_argmax4]
  · show 0 ≤ npMax [P 0, P 1, P 2, P 3]
    rw [npMax_eq_argmax4]
    exact hnn _
  · show npMax [P 0, P 1, P 2, P 3] ≤ 1
    rw [npMax_eq_argmax4]
    exact hle1 _

/-- C3 witness: the contract at a concrete trained state and the zero
feature vector. -/
theorem C3_predict_contract_witness :
    ∃ r, METPredictor_predict example_state (List.replicate 16 0) = .ok r
      ∧ r.probabilities.sum = 1 ∧ 0 ≤ r.confidence ∧ r.confidence ≤ 1 := by
  obtain ⟨r, h1, _, h3, _, _, _, _, _, h9, h10⟩ :=
    C3_predict_contract example_state (List.replicate 16 0)
      example_forest example_scaler rfl rfl (by simp) (by simp [example_forest])
      (by
        intro t ht
        simp only [example_forest, List.mem_singleton] at ht
        subst ht
        constructor
        · intro c
          dsimp only
          split_ifs <;> norm_num
        · rw [Fin.sum_univ_four]
          norm_num
          decide)
  exact ⟨r, h1, h3, h9, h10⟩
